import Mathlib

/-!
Verification of the retry-with-backoff request executor of `httpwrapper`.

The repository has two source files:

* `src/httpwrapper/__init__.py` — `ClientConfig`, `BaseClient` (blocking
  variant, backed by an httpx `Client`);
* `src/httpwrapper/async_.py` — `AsyncClientConfig`, `BaseAsyncClient`
  (concurrent variant, backed by an aiohttp `ClientSession`).

Both `_request` methods run the same loop:

    count, _sleep_time = 0, config.sleep_time
    while True:
        count += 1
        try:
            return <transport call>
        except ... as e:
            if count >= config.retry:
                raise e
            sleep(_sleep_time)
            _sleep_time += config.sleep_time_increment

We embed the loop shallowly.  The transport is a function
`t : Nat → Except ε ρ` giving the outcome of the n-th invocation
(1-indexed): `.ok r` means the HTTP exchange returned response `r`,
`.error e` means the transport raised exception `e`.  Both variants catch
every exception (`except (RequestError, Exception)` resp.
`except Exception`), so every `.error` outcome takes the retry branch.
A run is summarised by the number of transport invocations performed, the
list of sleep durations executed (in order), and the final outcome
(`.ok` = returned response, `.error` = exception propagated to the
caller by `raise e`).
-/

instance {ε ρ : Type} [DecidableEq ε] [DecidableEq ρ] :
    DecidableEq (Except ε ρ) := fun
  | .ok a, .ok b =>
    if h : a = b then .isTrue (by rw [h]) else .isFalse (by simp [h])
  | .ok _, .error _ => .isFalse (by simp)
  | .error _, .ok _ => .isFalse (by simp)
  | .error a, .error b =>
    if h : a = b then .isTrue (by rw [h]) else .isFalse (by simp [h])

/-- Summary of one `_request` call: how many times the transport was
invoked, which sleeps were performed between attempts (in order), and the
final outcome (`.ok r` = `return response`, `.error e` = `raise e`). -/
structure RunResult (ε ρ : Type) where
  calls : Nat
  sleeps : List Int
  outcome : Except ε ρ
  deriving Repr, DecidableEq

/-- `ClientConfig` dataclass of `src/httpwrapper/__init__.py` (lines
11-17).  Python ints are unbounded, hence `Int`.  The dataclass performs
no validation of any field. -/
structure ClientConfig where
  retry : Int := 99
  timeout : Int := 99
  sleep_time : Int := 1
  sleep_time_increment : Int := 3
  follow_redirects : Bool := false
  deriving Repr, DecidableEq

/-- `AsyncClientConfig` dataclass of `src/httpwrapper/async_.py` (lines
11-18).  `timeout` models `ClientTimeout(total=99)` by its total; the
dataclass performs no validation of any field. -/
structure AsyncClientConfig where
  retry : Int := 99
  timeout : Int := 99
  sleep_time : Int := 1
  sleep_time_increment : Int := 3
  allow_redirects : Bool := false
  proxy : Option (List Char) := none
  deriving Repr, DecidableEq

/-- Effect of the retry branch around a recursive continuation: the sleep
`sleep(_sleep_time)` executed before the continuation is recorded in
front of the continuation's sleeps (`__init__.py` line 83 /
`async_.py` line 86). -/
def afterSleep {ε ρ : Type} (s : Int) (r : RunResult ε ρ) : RunResult ε ρ :=
  ⟨r.calls, s :: r.sleeps, r.outcome⟩

/-- The `while True` loop of `BaseClient._request`
(`src/httpwrapper/__init__.py` lines 54-84).  `count` is the number of
attempts already made (0 at entry, line 51), `s` is the current
`_sleep_time`.  Each iteration increments the count, invokes the
transport, returns a successful response immediately (line 75), and on an
exception either re-raises it when `count >= config.retry` (lines 80-82)
or sleeps `_sleep_time` and retries with
`_sleep_time += config.sleep_time_increment` (lines 83-84). -/
def requestLoop {ε ρ : Type} (retry incr : Int) (t : Nat → Except ε ρ)
    (count : Nat) (s : Int) : RunResult ε ρ :=
  match t (count + 1) with
  | .ok r => ⟨count + 1, [], .ok r⟩
  | .error e =>
    if retry ≤ (count : Int) + 1 then ⟨count + 1, [], .error e⟩
    else afterSleep s (requestLoop retry incr t (count + 1) (s + incr))
termination_by (retry - (count : Int)).toNat
decreasing_by
  rename_i h
  push_neg at h
  omega

/-- The `while True` loop of `BaseAsyncClient._request`
(`src/httpwrapper/async_.py` lines 61-87), transcribed separately: the
source duplicates the algorithm in the concurrent variant, so the
embedding does too.  Identical structure: increment `count`, invoke the
transport, return on success (line 70), on exception re-raise when
`count >= config.retry` (lines 83-85) else sleep and increment the
backoff (lines 86-87). -/
def requestLoopAsync {ε ρ : Type} (retry incr : Int) (t : Nat → Except ε ρ)
    (count : Nat) (s : Int) : RunResult ε ρ :=
  match t (count + 1) with
  | .ok r => ⟨count + 1, [], .ok r⟩
  | .error e =>
    if retry ≤ (count : Int) + 1 then ⟨count + 1, [], .error e⟩
    else afterSleep s (requestLoopAsync retry incr t (count + 1) (s + incr))
termination_by (retry - (count : Int)).toNat
decreasing_by
  rename_i h
  push_neg at h
  omega

/-- `BaseClient._request` (`src/httpwrapper/__init__.py` lines 41-84):
initialises `count, _sleep_time = 0, config.sleep_time` (line 51) and
runs the loop. -/
def BaseClient._request {ε ρ : Type} (config : ClientConfig)
    (t : Nat → Except ε ρ) : RunResult ε ρ :=
  requestLoop config.retry config.sleep_time_increment t 0 config.sleep_time

/-- `BaseAsyncClient._request` (`src/httpwrapper/async_.py` lines 46-87):
initialises `count, _sleep_time = 0, config.sleep_time` (line 58) and
runs the loop.  (Its leading-slash URL normalisation, lines 55-56, is
embedded separately as `BaseAsyncClient.normalizeUrl` below.) -/
def BaseAsyncClient._request {ε ρ : Type} (config : AsyncClientConfig)
    (t : Nat → Except ε ρ) : RunResult ε ρ :=
  requestLoopAsync config.retry config.sleep_time_increment t 0 config.sleep_time

/-- The linear backoff sequence: `backoffSeq a d n` is the list of `n`
sleeps starting at `a` and increasing by `d` each time, exactly the
successive values taken by `_sleep_time`. -/
def backoffSeq (a d : Int) : Nat → List Int
  | 0 => []
  | n + 1 => a :: backoffSeq (a + d) d n

-- Step lemmas for the loop.

theorem requestLoop_ok {ε ρ : Type} (retry incr : Int) (t : Nat → Except ε ρ)
    (count : Nat) (s : Int) (r : ρ) (h : t (count + 1) = .ok r) :
    requestLoop retry incr t count s = ⟨count + 1, [], .ok r⟩ := by
  rw [requestLoop, h]

theorem requestLoop_err_stop {ε ρ : Type} (retry incr : Int)
    (t : Nat → Except ε ρ) (count : Nat) (s : Int) (e : ε)
    (h : t (count + 1) = .error e) (hge : retry ≤ (count : Int) + 1) :
    requestLoop retry incr t count s = ⟨count + 1, [], .error e⟩ := by
  rw [requestLoop, h]
  simp [hge]

theorem requestLoop_err_cont {ε ρ : Type} (retry incr : Int)
    (t : Nat → Except ε ρ) (count : Nat) (s : Int) (e : ε)
    (h : t (count + 1) = .error e) (hlt : (count : Int) + 1 < retry) :
    requestLoop retry incr t count s =
      afterSleep s (requestLoop retry incr t (count + 1) (s + incr)) := by
  rw [requestLoop, h]
  simp [not_le.mpr hlt]

theorem requestLoopAsync_ok {ε ρ : Type} (retry incr : Int)
    (t : Nat → Except ε ρ) (count : Nat) (s : Int) (r : ρ)
    (h : t (count + 1) = .ok r) :
    requestLoopAsync retry incr t count s = ⟨count + 1, [], .ok r⟩ := by
  rw [requestLoopAsync, h]

theorem requestLoopAsync_err_stop {ε ρ : Type} (retry incr : Int)
    (t : Nat → Except ε ρ) (count : Nat) (s : Int) (e : ε)
    (h : t (count + 1) = .error e) (hge : retry ≤ (count : Int) + 1) :
    requestLoopAsync retry incr t count s = ⟨count + 1, [], .error e⟩ := by
  rw [requestLoopAsync, h]
  simp [hge]

theorem requestLoopAsync_err_cont {ε ρ : Type} (retry incr : Int)
    (t : Nat → Except ε ρ) (count : Nat) (s : Int) (e : ε)
    (h : t (count + 1) = .error e) (hlt : (count : Int) + 1 < retry) :
    requestLoopAsync retry incr t count s =
      afterSleep s (requestLoopAsync retry incr t (count + 1) (s + incr)) := by
  rw [requestLoopAsync, h]
  simp [not_le.mpr hlt]

-- Characterisation of a run in which the transport fails on every attempt
-- up to the retry limit: the loop performs exactly `retry` attempts, with
-- the linear backoff sleeps in between, and re-raises the last error.

theorem requestLoop_exhaust_aux {ε ρ : Type} (retry incr : Int)
    (t : Nat → Except ε ρ) (err : Nat → ε) :
    ∀ (m count : Nat) (s : Int), retry.toNat - count - 1 = m →
      (count : Int) < retry →
      (∀ n, count < n → (n : Int) ≤ retry → t n = .error (err n)) →
      requestLoop retry incr t count s =
        ⟨retry.toNat, backoffSeq s incr m, .error (err retry.toNat)⟩ := by
  intro m
  induction m with
  | zero =>
    intro count s hm hlt hfail
    have hr : retry = (count : Int) + 1 := by omega
    have ht : t (count + 1) = .error (err (count + 1)) := by
      apply hfail <;> omega
    rw [requestLoop_err_stop retry incr t count s _ ht (le_of_eq hr)]
    have : retry.toNat = count + 1 := by omega
    rw [this, backoffSeq]
  | succ m ih =>
    intro count s hm hlt hfail
    have hlt1 : (count : Int) + 1 < retry := by omega
    have ht : t (count + 1) = .error (err (count + 1)) := by
      apply hfail <;> omega
    rw [requestLoop_err_cont retry incr t count s _ ht hlt1]
    rw [ih (count + 1) (s + incr) (by omega) (by omega)
      (fun n h1 h2 => hfail n (by omega) h2)]
    rw [backoffSeq]
    rfl

theorem requestLoop_exhaust {ε ρ : Type} (retry incr : Int)
    (t : Nat → Except ε ρ) (err : Nat → ε) (s : Int)
    (h1 : 1 ≤ retry)
    (hfail : ∀ n : Nat, 1 ≤ n → (n : Int) ≤ retry → t n = .error (err n)) :
    requestLoop retry incr t 0 s =
      ⟨retry.toNat, backoffSeq s incr (retry.toNat - 1), .error (err retry.toNat)⟩ := by
  exact requestLoop_exhaust_aux retry incr t err (retry.toNat - 1) 0 s
    (by omega) (by omega) (fun n hn h2 => hfail n hn h2)

-- Characterisation of a run in which the transport fails on every attempt
-- before `k` and succeeds at attempt `k ≤ retry`: exactly `k` attempts,
-- `k - 1` linear backoff sleeps, and the response returned unchanged.

theorem requestLoop_succeed_aux {ε ρ : Type} (retry incr : Int)
    (t : Nat → Except ε ρ) (err : Nat → ε) (k : Nat) (r : ρ) :
    ∀ (m count : Nat) (s : Int), k - count - 1 = m →
      count < k → (k : Int) ≤ retry →
      (∀ n, count < n → n < k → t n = .error (err n)) →
      t k = .ok r →
      requestLoop retry incr t count s = ⟨k, backoffSeq s incr m, .ok r⟩ := by
  intro m
  induction m with
  | zero =>
    intro count s hm hlt hk hfail hok
    have hck : count + 1 = k := by omega
    rw [requestLoop_ok retry incr t count s r (by rw [hck]; exact hok)]
    rw [hck, backoffSeq]
  | succ m ih =>
    intro count s hm hlt hk hfail hok
    have hlt1 : (count : Int) + 1 < retry := by
      have : ((count : Int) + 1) < (k : Int) := by exact_mod_cast by omega
      omega
    have ht : t (count + 1) = .error (err (count + 1)) := by
      apply hfail <;> omega
    rw [requestLoop_err_cont retry incr t count s _ ht hlt1]
    rw [ih (count + 1) (s + incr) (by omega) (by omega) hk
      (fun n hn h2 => hfail n (by omega) h2) hok]
    rw [backoffSeq]
    rfl

theorem requestLoop_succeed {ε ρ : Type} (retry incr : Int)
    (t : Nat → Except ε ρ) (err : Nat → ε) (k : Nat) (r : ρ) (s : Int)
    (hk1 : 1 ≤ k) (hk : (k : Int) ≤ retry)
    (hfail : ∀ n, 1 ≤ n → n < k → t n = .error (err n))
    (hok : t k = .ok r) :
    requestLoop retry incr t 0 s = ⟨k, backoffSeq s incr (k - 1), .ok r⟩ := by
  exact requestLoop_succeed_aux retry incr t err k r (k - 1) 0 s
    (by omega) (by omega) hk (fun n hn h2 => hfail n hn h2) hok

-- Indexing into the backoff sequence: the j-th sleep (0-indexed) is the
-- initial value plus j increments.

theorem backoffSeq_getElem (a d : Int) :
    ∀ (n j : Nat), j < n →
      (backoffSeq a d n)[j]? = some (a + (j : Int) * d) := by
  intro n
  induction n generalizing a with
  | zero => omega
  | succ n ih =>
    intro j hj
    cases j with
    | zero => simp [backoffSeq]
    | succ j =>
      rw [backoffSeq]
      rw [List.getElem?_cons_succ, ih (a + d) j (by omega)]
      congr 1
      push_cast
      ring

theorem backoffSeq_length (a d : Int) :
    ∀ n, (backoffSeq a d n).length = n := by
  intro n
  induction n generalizing a with
  | zero => rfl
  | succ n ih => simp [backoffSeq, ih]

-- The two variants run the identical loop: the blocking and concurrent
-- transcriptions agree on every input.

theorem requestLoop_eq_async_aux {ε ρ : Type} (retry incr : Int)
    (t : Nat → Except ε ρ) :
    ∀ (fuel count : Nat) (s : Int), (retry - (count : Int)).toNat ≤ fuel →
      requestLoop retry incr t count s = requestLoopAsync retry incr t count s := by
  intro fuel
  induction fuel with
  | zero =>
    intro count s hf
    cases ht : t (count + 1) with
    | ok r =>
      rw [requestLoop_ok retry incr t count s r ht,
        requestLoopAsync_ok retry incr t count s r ht]
    | error e =>
      have hge : retry ≤ (count : Int) + 1 := by omega
      rw [requestLoop_err_stop retry incr t count s e ht hge,
        requestLoopAsync_err_stop retry incr t count s e ht hge]
  | succ fuel ih =>
    intro count s hf
    cases ht : t (count + 1) with
    | ok r =>
      rw [requestLoop_ok retry incr t count s r ht,
        requestLoopAsync_ok retry incr t count s r ht]
    | error e =>
      by_cases hge : retry ≤ (count : Int) + 1
      · rw [requestLoop_err_stop retry incr t count s e ht hge,
          requestLoopAsync_err_stop retry incr t count s e ht hge]
      · push_neg at hge
        rw [requestLoop_err_cont retry incr t count s e ht hge,
          requestLoopAsync_err_cont retry incr t count s e ht hge,
          ih (count + 1) (s + incr) (by omega)]

theorem requestLoop_eq_async {ε ρ : Type} (retry incr : Int)
    (t : Nat → Except ε ρ) (count : Nat) (s : Int) :
    requestLoop retry incr t count s = requestLoopAsync retry incr t count s :=
  requestLoop_eq_async_aux retry incr t (retry - (count : Int)).toNat count s le_rfl

-- Upper bound on the number of transport invocations: the loop always
-- terminates after at most `max (count+1) retry.toNat` attempts.

theorem requestLoop_calls_le_aux {ε ρ : Type} (retry incr : Int)
    (t : Nat → Except ε ρ) :
    ∀ (fuel count : Nat) (s : Int), (retry - (count : Int)).toNat ≤ fuel →
      (requestLoop retry incr t count s).calls ≤ max (count + 1) retry.toNat := by
  intro fuel
  induction fuel with
  | zero =>
    intro count s hf
    cases ht : t (count + 1) with
    | ok r => rw [requestLoop_ok retry incr t count s r ht]; simp
    | error e =>
      have hge : retry ≤ (count : Int) + 1 := by omega
      rw [requestLoop_err_stop retry incr t count s e ht hge]
      simp
  | succ fuel ih =>
    intro count s hf
    cases ht : t (count + 1) with
    | ok r => rw [requestLoop_ok retry incr t count s r ht]; simp
    | error e =>
      by_cases hge : retry ≤ (count : Int) + 1
      · rw [requestLoop_err_stop retry incr t count s e ht hge]
        simp
      · push_neg at hge
        rw [requestLoop_err_cont retry incr t count s e ht hge]
        have h2 := ih (count + 1) (s + incr) (by omega)
        have : (requestLoop retry incr t (count + 1) (s + incr)).calls =
            (afterSleep s (requestLoop retry incr t (count + 1) (s + incr))).calls := rfl
        omega

-- Every sleep the loop ever performs is linear in its position: the j-th
-- recorded sleep (0-indexed) is the current `_sleep_time` plus `j`
-- increments.  This holds for every run, successful or exhausted.

theorem requestLoop_sleeps_arith {ε ρ : Type} (retry incr : Int)
    (t : Nat → Except ε ρ) :
    ∀ (fuel count : Nat) (s : Int), (retry - (count : Int)).toNat ≤ fuel →
      ∀ j : Nat, j < (requestLoop retry incr t count s).sleeps.length →
        (requestLoop retry incr t count s).sleeps[j]? =
          some (s + (j : Int) * incr) := by
  intro fuel
  induction fuel with
  | zero =>
    intro count s hf j hj
    cases ht : t (count + 1) with
    | ok r => rw [requestLoop_ok retry incr t count s r ht] at hj; simp at hj
    | error e =>
      have hge : retry ≤ (count : Int) + 1 := by omega
      rw [requestLoop_err_stop retry incr t count s e ht hge] at hj
      simp at hj
  | succ fuel ih =>
    intro count s hf j hj
    cases ht : t (count + 1) with
    | ok r => rw [requestLoop_ok retry incr t count s r ht] at hj; simp at hj
    | error e =>
      by_cases hge : retry ≤ (count : Int) + 1
      · rw [requestLoop_err_stop retry incr t count s e ht hge] at hj
        simp at hj
      · push_neg at hge
        rw [requestLoop_err_cont retry incr t count s e ht hge] at hj ⊢
        unfold afterSleep at hj ⊢
        cases j with
        | zero => simp
        | succ j =>
          simp only [List.length_cons] at hj
          rw [List.getElem?_cons_succ]
          rw [ih (count + 1) (s + incr) (by omega) j (by omega)]
          congr 1
          push_cast
          ring

/-- `Response` of httpx as seen by `BaseClient._request`
(`src/httpwrapper/__init__.py` lines 62-75): an opaque success value with
a status code and a body, returned verbatim by the executor whatever the
status is. -/
structure Response where
  status_code : Int
  text : List Char
  deriving Repr, DecidableEq

/-- C1: for every retry limit N ≥ 1 and every transport that fails
(raises) on all attempts, `_request` invokes the transport exactly N
times and then raises; the run performs no further invocation after the
N-th failure. -/
theorem transport_exhaustion_invokes_exactly_retry {ε ρ : Type}
    (cfg : ClientConfig) (t : Nat → Except ε ρ) (err : Nat → ε)
    (hN : 1 ≤ cfg.retry)
    (hfail : ∀ n : Nat, t n = Except.error (err n)) :
    (BaseClient._request cfg t).calls = cfg.retry.toNat ∧
    (BaseClient._request cfg t).outcome.isOk = false := by
  unfold BaseClient._request
  rw [requestLoop_exhaust cfg.retry cfg.sleep_time_increment t err
    cfg.sleep_time hN (fun n h1 h2 => hfail n)]
  exact ⟨rfl, rfl⟩

theorem transport_exhaustion_invokes_exactly_retry_witness :
    (BaseClient._request ({ retry := 4 } : ClientConfig)
      (fun n => (Except.error n : Except Nat Nat))).calls = 4 ∧
    (BaseClient._request ({ retry := 4 } : ClientConfig)
      (fun n => (Except.error n : Except Nat Nat))).outcome.isOk = false := by
  have h := transport_exhaustion_invokes_exactly_retry
    ({ retry := 4 } : ClientConfig)
    (fun n => (Except.error n : Except Nat Nat)) (fun n => n)
    (by decide) (fun n => rfl)
  simpa using h

/-- C2: for every retry limit and every transport whose attempts before
`k` fail and whose `k`-th attempt succeeds with response `r` (`k` within
the retry limit), `_request` invokes the transport exactly `k` times and
returns `r` unchanged. -/
theorem transport_success_at_k_returns_after_k {ε ρ : Type}
    (cfg : ClientConfig) (t : Nat → Except ε ρ) (err : Nat → ε)
    (k : Nat) (r : ρ)
    (hk1 : 1 ≤ k) (hk : (k : Int) ≤ cfg.retry)
    (hfail : ∀ n : Nat, 1 ≤ n → n < k → t n = Except.error (err n))
    (hok : t k = Except.ok r) :
    (BaseClient._request cfg t).calls = k ∧
    (BaseClient._request cfg t).outcome = Except.ok r := by
  unfold BaseClient._request
  rw [requestLoop_succeed cfg.retry cfg.sleep_time_increment t err k r
    cfg.sleep_time hk1 hk hfail hok]
  exact ⟨rfl, rfl⟩

theorem transport_success_at_k_returns_after_k_witness :
    (BaseClient._request ({ retry := 5 } : ClientConfig)
      (fun n => if n < 3 then (Except.error n : Except Nat Nat)
        else Except.ok 7)).calls = 3 ∧
    (BaseClient._request ({ retry := 5 } : ClientConfig)
      (fun n => if n < 3 then (Except.error n : Except Nat Nat)
        else Except.ok 7)).outcome = Except.ok 7 := by
  have h := transport_success_at_k_returns_after_k
    ({ retry := 5 } : ClientConfig)
    (fun n => if n < 3 then (Except.error n : Except Nat Nat)
      else Except.ok 7)
    (fun n => n) 3 7 (by decide) (by decide)
    (by intro n h1 h2; interval_cases n <;> rfl) rfl
  simpa using h

/-- C3: the backoff is linear: in every run of `_request` that performs an
i-th sleep (the sleep between attempt i and attempt i+1), that sleep
equals `sleep_time + (i-1) * sleep_time_increment`; this holds for
successful and exhausted runs alike. -/
theorem backoff_between_attempts_is_linear {ε ρ : Type}
    (cfg : ClientConfig) (t : Nat → Except ε ρ) :
    ∀ i : Nat, 1 ≤ i → i ≤ (BaseClient._request cfg t).sleeps.length →
      (BaseClient._request cfg t).sleeps[i - 1]? =
        some (cfg.sleep_time + ((i : Int) - 1) * cfg.sleep_time_increment) := by
  intro i h1 h2
  have h := requestLoop_sleeps_arith cfg.retry cfg.sleep_time_increment t
    (cfg.retry - ((0 : Nat) : Int)).toNat 0 cfg.sleep_time le_rfl (i - 1)
    (by unfold BaseClient._request at h2; omega)
  unfold BaseClient._request
  rw [h]
  congr 1
  have hc : ((i - 1 : Nat) : Int) = (i : Int) - 1 := by omega
  rw [hc]

theorem backoff_between_attempts_is_linear_witness :
    (BaseClient._request
      ({ retry := 3, sleep_time := 1, sleep_time_increment := 3 } : ClientConfig)
      (fun n => if n < 3 then (Except.error n : Except Nat Nat)
        else Except.ok 42)).sleeps[0]? = some 1 ∧
    (BaseClient._request
      ({ retry := 3, sleep_time := 1, sleep_time_increment := 3 } : ClientConfig)
      (fun n => if n < 3 then (Except.error n : Except Nat Nat)
        else Except.ok 42)).sleeps[1]? = some 4 ∧
    (BaseClient._request
      ({ retry := 3, sleep_time := 1, sleep_time_increment := 3 } : ClientConfig)
      (fun n => if n < 3 then (Except.error n : Except Nat Nat)
        else Except.ok 42)).sleeps = [1, 4] ∧
    (BaseClient._request
      ({ retry := 3, sleep_time := 1, sleep_time_increment := 3 } : ClientConfig)
      (fun n => if n < 3 then (Except.error n : Except Nat Nat)
        else Except.ok 42)).sleeps.sum = 5 ∧
    (BaseClient._request
      ({ retry := 3, sleep_time := 1, sleep_time_increment := 3 } : ClientConfig)
      (fun n => if n < 3 then (Except.error n : Except Nat Nat)
        else Except.ok 42)).outcome = Except.ok 42 := by
  have hrun : BaseClient._request
      ({ retry := 3, sleep_time := 1, sleep_time_increment := 3 } : ClientConfig)
      (fun n => if n < 3 then (Except.error n : Except Nat Nat)
        else Except.ok 42) = ⟨3, [1, 4], Except.ok 42⟩ := by
    unfold BaseClient._request
    rw [requestLoop_succeed 3 3 _ (fun n => n) 3 42 1 (by decide) (by decide)
      (by intro n h1 h2; interval_cases n <;> rfl) rfl]
    rfl
  have h1 := backoff_between_attempts_is_linear
    ({ retry := 3, sleep_time := 1, sleep_time_increment := 3 } : ClientConfig)
    (fun n => if n < 3 then (Except.error n : Except Nat Nat)
      else Except.ok 42) 1 (by decide) (by rw [hrun]; decide)
  have h2 := backoff_between_attempts_is_linear
    ({ retry := 3, sleep_time := 1, sleep_time_increment := 3 } : ClientConfig)
    (fun n => if n < 3 then (Except.error n : Except Nat Nat)
      else Except.ok 42) 2 (by decide) (by rw [hrun]; decide)
  refine ⟨by simpa using h1, by simpa using h2, ?_, ?_, ?_⟩ <;>
    (rw [hrun]; try decide)

/-- C4: when the transport fails on the final allowed attempt (attempt
number `retry`), `_request` raises immediately and performs no sleep
after that failure: an exhausted run of N attempts records exactly N - 1
sleeps. -/
theorem final_failure_raises_without_sleep {ε ρ : Type}
    (cfg : ClientConfig) (t : Nat → Except ε ρ) (err : Nat → ε)
    (hN : 1 ≤ cfg.retry)
    (hfail : ∀ n : Nat, 1 ≤ n → (n : Int) ≤ cfg.retry →
      t n = Except.error (err n)) :
    (BaseClient._request cfg t).calls = cfg.retry.toNat ∧
    (BaseClient._request cfg t).sleeps.length = cfg.retry.toNat - 1 ∧
    (BaseClient._request cfg t).outcome.isOk = false := by
  unfold BaseClient._request
  rw [requestLoop_exhaust cfg.retry cfg.sleep_time_increment t err
    cfg.sleep_time hN hfail]
  exact ⟨rfl, backoffSeq_length _ _ _, rfl⟩

theorem final_failure_raises_without_sleep_witness :
    (BaseClient._request ({ retry := 1 } : ClientConfig)
      (fun n => (Except.error n : Except Nat Nat))).calls = 1 ∧
    (BaseClient._request ({ retry := 1 } : ClientConfig)
      (fun n => (Except.error n : Except Nat Nat))).sleeps = [] ∧
    (BaseClient._request ({ retry := 1 } : ClientConfig)
      (fun n => (Except.error n : Except Nat Nat))).outcome.isOk = false := by
  have h := final_failure_raises_without_sleep
    ({ retry := 1 } : ClientConfig)
    (fun n => (Except.error n : Except Nat Nat)) (fun n => n)
    (by decide) (fun n h1 h2 => rfl)
  refine ⟨by simpa using h.1, ?_, h.2.2⟩
  have hlen := h.2.1
  simpa using List.eq_nil_of_length_eq_zero (by simpa using hlen)

/-- C5 counterexample: with `retry = 2` and a transport raising the error
value `n` on attempt `n`, the exhausted run's raised error is exactly the
transport's own last error, the value `2`: `raise e` re-raises the
transport error itself, unwrapped — the code defines no
TransportExhaustedError and records no attempt count in what it raises. -/
theorem exhaustion_raises_transport_error_itself :
    (BaseClient._request ({ retry := 2 } : ClientConfig)
      (fun n => (Except.error n : Except Nat Nat))).outcome =
      Except.error 2 := by
  have h : requestLoop 2 3 (fun n => (Except.error n : Except Nat Nat)) 0 1 =
      ⟨(2 : Int).toNat, backoffSeq 1 3 ((2 : Int).toNat - 1), Except.error 2⟩ := by
    have := requestLoop_exhaust 2 3
      (fun n => (Except.error n : Except Nat Nat)) (fun n => n) 1
      (by decide) (fun n h1 h2 => rfl)
    simpa using this
  unfold BaseClient._request
  exact congrArg RunResult.outcome h

/-- C5 (amended): on exhaustion (all `retry` attempts failed), `_request`
re-raises the last transport error itself, unchanged (`raise e`); no
distinct wrapping exhaustion error exists in the code. -/
theorem exhaustion_reraises_last_transport_error {ε ρ : Type}
    (cfg : ClientConfig) (t : Nat → Except ε ρ) (err : Nat → ε)
    (hN : 1 ≤ cfg.retry)
    (hfail : ∀ n : Nat, 1 ≤ n → (n : Int) ≤ cfg.retry →
      t n = Except.error (err n)) :
    (BaseClient._request cfg t).outcome =
      Except.error (err cfg.retry.toNat) := by
  unfold BaseClient._request
  rw [requestLoop_exhaust cfg.retry cfg.sleep_time_increment t err
    cfg.sleep_time hN hfail]

theorem exhaustion_reraises_last_transport_error_witness :
    (BaseClient._request ({ retry := 3 } : ClientConfig)
      (fun n => (Except.error (10 * n) : Except Nat Nat))).outcome =
      Except.error 30 := by
  have h := exhaustion_reraises_last_transport_error
    ({ retry := 3 } : ClientConfig)
    (fun n => (Except.error (10 * n) : Except Nat Nat)) (fun n => 10 * n)
    (by decide) (fun n h1 h2 => rfl)
  simpa using h

/-- C6 counterexample: `ClientConfig` with `retry := 0` is accepted at
construction — the dataclass has no validation and no failure path — and
the invalid value surfaces only at call time, where `_request` performs
one attempt and raises the first transport error. -/
theorem invalid_retry_config_accepted :
    ({ retry := 0 } : ClientConfig).retry = 0 ∧
    (BaseClient._request ({ retry := 0 } : ClientConfig)
      (fun n => (Except.error n : Except Nat Nat))).calls = 1 ∧
    (BaseClient._request ({ retry := 0 } : ClientConfig)
      (fun n => (Except.error n : Except Nat Nat))).outcome =
      Except.error 1 := by
  have hrun : BaseClient._request ({ retry := 0 } : ClientConfig)
      (fun n => (Except.error n : Except Nat Nat)) =
      ⟨1, [], Except.error 1⟩ := by
    unfold BaseClient._request
    exact requestLoop_err_stop 0 3 _ 0 1 1 rfl (by decide)
  exact ⟨rfl, by rw [hrun], by rw [hrun]⟩

/-- C6 (amended): neither `ClientConfig` nor the client constructors
validate `retry`; a configuration with `retry < 1` is accepted and the
invalid value surfaces at call time, where `_request` performs exactly
one attempt, sleeps never, and raises the first transport error. -/
theorem invalid_retry_surfaces_at_call_time {ε ρ : Type}
    (cfg : ClientConfig) (t : Nat → Except ε ρ) (e : ε)
    (hr : cfg.retry < 1) (h1 : t 1 = Except.error e) :
    (BaseClient._request cfg t).calls = 1 ∧
    (BaseClient._request cfg t).sleeps = [] ∧
    (BaseClient._request cfg t).outcome = Except.error e := by
  unfold BaseClient._request
  rw [requestLoop_err_stop cfg.retry cfg.sleep_time_increment t 0
    cfg.sleep_time e h1 (by omega)]
  exact ⟨rfl, rfl, rfl⟩

theorem invalid_retry_surfaces_at_call_time_witness :
    (BaseClient._request ({ retry := -5 } : ClientConfig)
      (fun n => (Except.error n : Except Nat Nat))).calls = 1 ∧
    (BaseClient._request ({ retry := -5 } : ClientConfig)
      (fun n => (Except.error n : Except Nat Nat))).sleeps = [] ∧
    (BaseClient._request ({ retry := -5 } : ClientConfig)
      (fun n => (Except.error n : Except Nat Nat))).outcome =
      Except.error 1 :=
  invalid_retry_surfaces_at_call_time ({ retry := -5 } : ClientConfig)
    (fun n => (Except.error n : Except Nat Nat)) 1 (by decide) rfl

/-- C7: every response the transport returns successfully is returned
as-is by `_request` with exactly one transport invocation when the first
exchange succeeds, regardless of its HTTP status code (500 included):
only a raised transport error ever triggers a retry. -/
theorem success_response_returned_as_is_any_status {ε : Type}
    (cfg : ClientConfig) (t : Nat → Except ε Response) (r : Response)
    (hok : t 1 = Except.ok r) :
    (BaseClient._request cfg t).calls = 1 ∧
    (BaseClient._request cfg t).outcome = Except.ok r := by
  unfold BaseClient._request
  rw [requestLoop_ok cfg.retry cfg.sleep_time_increment t 0
    cfg.sleep_time r hok]
  exact ⟨rfl, rfl⟩

theorem success_response_returned_as_is_any_status_witness :
    (BaseClient._request ({} : ClientConfig)
      (fun _ => (Except.ok ⟨500, []⟩ : Except Nat Response))).calls = 1 ∧
    (BaseClient._request ({} : ClientConfig)
      (fun _ => (Except.ok ⟨500, []⟩ : Except Nat Response))).outcome =
      Except.ok ⟨500, []⟩ :=
  success_response_returned_as_is_any_status ({} : ClientConfig)
    (fun _ => (Except.ok ⟨500, []⟩ : Except Nat Response)) ⟨500, []⟩ rfl

/-- C9: the blocking and the concurrent variant implement the identical
retry algorithm: for every pair of configurations agreeing on the retry
fields and every sequence of transport outcomes, the two `_request`
embeddings produce the same run — same number of transport invocations,
same backoff sequence, same returned response or raised error. -/
theorem sync_and_async_identical_algorithm {ε ρ : Type}
    (c : ClientConfig) (a : AsyncClientConfig) (t : Nat → Except ε ρ)
    (hr : c.retry = a.retry) (hs : c.sleep_time = a.sleep_time)
    (hi : c.sleep_time_increment = a.sleep_time_increment) :
    BaseClient._request c t = BaseAsyncClient._request a t := by
  unfold BaseClient._request BaseAsyncClient._request
  rw [hr, hs, hi]
  exact requestLoop_eq_async a.retry a.sleep_time_increment t 0 a.sleep_time

theorem sync_and_async_identical_algorithm_witness :
    BaseClient._request ({} : ClientConfig)
      (fun n => if n < 2 then (Except.error n : Except Nat Nat)
        else Except.ok 7) =
    BaseAsyncClient._request ({} : AsyncClientConfig)
      (fun n => if n < 2 then (Except.error n : Except Nat Nat)
        else Except.ok 7) :=
  sync_and_async_identical_algorithm ({} : ClientConfig)
    ({} : AsyncClientConfig)
    (fun n => if n < 2 then (Except.error n : Except Nat Nat)
      else Except.ok 7) rfl rfl rfl

/-- C10: `_request` is a total function of the configuration and the
transport outcomes: every run performs at most `max 1 retry` transport
invocations, and a `retry` below 1 behaves exactly like `retry = 1`
(the whole run — invocations, sleeps and outcome — is identical). -/
theorem request_total_and_low_retry_like_one {ε ρ : Type}
    (cfg : ClientConfig) (t : Nat → Except ε ρ) :
    (BaseClient._request cfg t).calls ≤ max 1 cfg.retry.toNat ∧
    (cfg.retry < 1 →
      BaseClient._request cfg t =
        BaseClient._request { cfg with retry := 1 } t) := by
  constructor
  · have h := requestLoop_calls_le_aux cfg.retry cfg.sleep_time_increment t
      (cfg.retry - ((0 : Nat) : Int)).toNat 0 cfg.sleep_time le_rfl
    unfold BaseClient._request
    simpa using h
  · intro hr
    show requestLoop cfg.retry cfg.sleep_time_increment t 0 cfg.sleep_time =
      requestLoop 1 cfg.sleep_time_increment t 0 cfg.sleep_time
    cases ht : t 1 with
    | ok r =>
      rw [requestLoop_ok cfg.retry cfg.sleep_time_increment t 0
          cfg.sleep_time r ht,
        requestLoop_ok 1 cfg.sleep_time_increment t 0 cfg.sleep_time r ht]
    | error e =>
      rw [requestLoop_err_stop cfg.retry cfg.sleep_time_increment t 0
          cfg.sleep_time e ht (by omega),
        requestLoop_err_stop 1 cfg.sleep_time_increment t 0
          cfg.sleep_time e ht (by omega)]

theorem request_total_and_low_retry_like_one_witness :
    (BaseClient._request ({ retry := 0 } : ClientConfig)
      (fun n => (Except.error n : Except Nat Nat))).calls ≤ 1 ∧
    BaseClient._request ({ retry := 0 } : ClientConfig)
      (fun n => (Except.error n : Except Nat Nat)) =
    BaseClient._request ({ retry := 1 } : ClientConfig)
      (fun n => (Except.error n : Except Nat Nat)) :=
  ⟨(request_total_and_low_retry_like_one ({ retry := 0 } : ClientConfig)
      (fun n => (Except.error n : Except Nat Nat))).1,
    (request_total_and_low_retry_like_one ({ retry := 0 } : ClientConfig)
      (fun n => (Except.error n : Except Nat Nat))).2 (by decide)⟩

-- Host normalisation and URL resolution.  Python strings are modelled as
-- `List Char`.

/-- Host normalisation of `BaseClient.__init__`
(`src/httpwrapper/__init__.py` lines 29-30):
`if host.endswith("/"): host = host[:-1]` — one trailing slash is
stripped before the host is handed to the httpx client as `base_url`. -/
def BaseClient.normalizeHost (host : List Char) : List Char :=
  if host.getLast? = some '/' then host.dropLast else host

/-- Host normalisation of `BaseAsyncClient.__init__`
(`src/httpwrapper/async_.py` lines 30-31):
`if not host.endswith("/"): host = host + "/"` — a trailing slash is
enforced before the host is handed to the aiohttp session as
`base_url`. -/
def BaseAsyncClient.normalizeHost (host : List Char) : List Char :=
  if host.getLast? = some '/' then host else host ++ ['/']

/-- URL normalisation of `BaseAsyncClient._request`
(`src/httpwrapper/async_.py` lines 55-56):
`if url.startswith("/"): url = url[1:]` — one leading slash is
stripped. -/
def BaseAsyncClient.normalizeUrl (url : List Char) : List Char :=
  match url with
  | '/' :: rest => rest
  | u => u

/-- Modelled from the spec: the combination of the session's base host
with the per-call relative URL is performed by the Transport (the
external httpx `Client(base_url=...)` / aiohttp
`ClientSession(base_url=...)`), whose code is not part of this
repository.  Per §4.1 ("combined with the session's base host by the
Transport, not by the executor") and scenario C of §8, the resolution
joins the base and the relative path with exactly one slash at the join
point (no duplicated or missing slash). -/
def Transport.resolveUrl (base rel : List Char) : List Char :=
  (base.reverse.dropWhile (fun c => c == '/')).reverse
    ++ '/' :: rel.dropWhile (fun c => c == '/')

/-- End-to-end resolution in the blocking variant: `BaseClient.__init__`
normalises the host, the Transport joins it with the request URL. -/
def BaseClient.resolve (host url : List Char) : List Char :=
  Transport.resolveUrl (BaseClient.normalizeHost host) url

/-- End-to-end resolution in the concurrent variant:
`BaseAsyncClient.__init__` enforces the trailing slash on the host,
`_request` strips the URL's leading slash, the Transport joins. -/
def BaseAsyncClient.resolve (host url : List Char) : List Char :=
  Transport.resolveUrl (BaseAsyncClient.normalizeHost host)
    (BaseAsyncClient.normalizeUrl url)

/-- The relative URL of scenario C, `"/widgets"`. -/
def slashWidgets : List Char := ['/', 'w', 'i', 'd', 'g', 'e', 't', 's']

theorem dropTrailing_eq (b : List Char) (hb : b.getLast? ≠ some '/') :
    (b.reverse.dropWhile (fun c => c == '/')).reverse = b := by
  rcases hr : b.reverse with _ | ⟨c, l⟩
  · have hnil : b = [] := by simpa using congrArg List.reverse hr
    simp [hnil]
  · have hc : (c == '/') = false := by
      have h1 : b.getLast? = some c := by
        rw [← List.head?_reverse, hr]
        rfl
      rcases eq_or_ne c '/' with h | h
      · exact absurd (h ▸ h1) hb
      · simpa using h
    rw [List.dropWhile_cons, hc]
    simp only [Bool.false_eq_true, if_false]
    rw [← hr, List.reverse_reverse]

theorem dropTrailing_concat_slash (b : List Char)
    (hb : b.getLast? ≠ some '/') :
    ((b ++ ['/']).reverse.dropWhile (fun c => c == '/')).reverse = b := by
  have h1 : (b ++ ['/']).reverse = '/' :: b.reverse := by simp
  rw [h1, List.dropWhile_cons]
  simp only [beq_self_eq_true, if_true]
  exact dropTrailing_eq b hb

/-- C8: for every base host (no trailing slash), supplied either as-is or
with a trailing slash added, resolving the relative URL `"/widgets"`
yields the host joined to `"widgets"` with exactly one slash at the join
point, identically in the blocking and the concurrent variant. -/
theorem resolve_join_single_slash (b : List Char)
    (hb : b.getLast? ≠ some '/') :
    BaseClient.resolve b slashWidgets = b ++ slashWidgets ∧
    BaseClient.resolve (b ++ ['/']) slashWidgets = b ++ slashWidgets ∧
    BaseAsyncClient.resolve b slashWidgets = b ++ slashWidgets ∧
    BaseAsyncClient.resolve (b ++ ['/']) slashWidgets = b ++ slashWidgets := by
  have hcat : (b ++ ['/']).getLast? = some '/' := by
    simp [List.getLast?_append]
  refine ⟨?_, ?_, ?_, ?_⟩
  · unfold BaseClient.resolve BaseClient.normalizeHost Transport.resolveUrl
    rw [if_neg hb, dropTrailing_eq b hb]
    rfl
  · unfold BaseClient.resolve BaseClient.normalizeHost Transport.resolveUrl
    rw [if_pos hcat, List.dropLast_concat, dropTrailing_eq b hb]
    rfl
  · unfold BaseAsyncClient.resolve BaseAsyncClient.normalizeHost
      Transport.resolveUrl
    rw [if_neg hb, dropTrailing_concat_slash b hb]
    rfl
  · unfold BaseAsyncClient.resolve BaseAsyncClient.normalizeHost
      Transport.resolveUrl
    rw [if_pos hcat, dropTrailing_concat_slash b hb]
    rfl

/-- The base host of scenario C without its trailing slash,
`"https://api.example.com"`. -/
def apiExampleHost : List Char :=
  ['h', 't', 't', 'p', 's', ':', '/', '/', 'a', 'p', 'i', '.',
   'e', 'x', 'a', 'm', 'p', 'l', 'e', '.', 'c', 'o', 'm']

theorem resolve_join_single_slash_witness :
    BaseClient.resolve apiExampleHost slashWidgets =
      apiExampleHost ++ slashWidgets ∧
    BaseClient.resolve (apiExampleHost ++ ['/']) slashWidgets =
      apiExampleHost ++ slashWidgets ∧
    BaseAsyncClient.resolve apiExampleHost slashWidgets =
      apiExampleHost ++ slashWidgets ∧
    BaseAsyncClient.resolve (apiExampleHost ++ ['/']) slashWidgets =
      apiExampleHost ++ slashWidgets :=
  resolve_join_single_slash apiExampleHost (by decide)
